import Mathlib

/-!
Verification of the OpenManus core (agent execution engine, planning
orchestrator, model request gateway) against its natural-language
specification.  The Python sources `app/agent/base.py`, `app/flow/planning.py`
and `app/llm.py` are shallowly embedded below: pure functions become Lean
functions, in-place mutation becomes explicit state passing, Python
exceptions become `Except`, and Python `int`/`float` arithmetic is modelled
with `Int`/`Rat` (exact rational arithmetic; every concrete input used in a
theorem below is float-exact, i.e. the Python `float` computation at that
input incurs no rounding, so the rational model agrees with CPython there).
-/

/-! ## Agent data model (`app/agent/base.py`) -/

/-- `AgentState` enumeration from `app.schema` (IDLE / RUNNING / FINISHED /
ERROR), as used by `BaseAgent`. -/
inductive AgentState where
  | idle
  | running
  | finished
  | error
deriving DecidableEq, Repr

/-- One conversation turn, restricted to the two fields `BaseAgent.run`,
`BaseAgent.update_memory` and `BaseAgent.is_stuck` inspect: `role` and
`content`.  A Python `content` of `None` is modelled as the empty string
(both are falsy under the `if not last_message.content` test). -/
structure Message where
  role : String
  content : String
deriving DecidableEq, Repr

/-- The mutable fields of `BaseAgent` that `run`, `is_stuck` and
`handle_stuck_state` read or write.  `duplicate_threshold : int` is an `Int`;
`next_step_prompt : Optional[str]` is an `Option String`. -/
structure Agent where
  state : AgentState
  memory : List Message
  next_step_prompt : Option String
  current_step : Nat
  max_steps : Nat
  duplicate_threshold : Int
deriving DecidableEq, Repr

namespace BaseAgent

/-- The diversification instruction of `BaseAgent.handle_stuck_state`
(the Python source uses a backslash line continuation, so the literal keeps
its eight leading spaces). -/
def stuck_prompt : String :=
  "        Observed duplicate responses. Consider new strategies and avoid repeating ineffective paths already attempted."

/-- `BaseAgent.handle_stuck_state`: prepend the stuck prompt to
`next_step_prompt` via an f-string (`f"{stuck_prompt}\n{self.next_step_prompt}"`;
a `None` prompt renders as the string `"None"`). -/
def handle_stuck_state (a : Agent) : Agent :=
  let old : String :=
    match a.next_step_prompt with
    | some s => s
    | none => "None"
  { a with next_step_prompt := some (stuck_prompt ++ "\n" ++ old) }

/-- `BaseAgent.is_stuck`: fewer than two messages is never stuck; a last
message without content is never stuck; otherwise count, over all prior
messages, those with role `assistant` and content equal to the last
message's content, and compare against `duplicate_threshold`. -/
def is_stuck (a : Agent) : Bool :=
  if a.memory.length < 2 then
    false
  else
    match a.memory.getLast? with
    | none => false
    | some last =>
      if last.content = "" then
        false
      else
        decide ((((a.memory.dropLast).filter
            (fun m => m.role == "assistant" && m.content == last.content)).length : Int)
          ≥ a.duplicate_threshold)

/-- `BaseAgent.update_memory`: append a message for a supported role,
raise `ValueError` (modelled as `.error`) otherwise.  Only the `role` and
`content` fields matter for the claims below; the optional image payload and
tool kwargs are dropped by the `Message` model. -/
def update_memory (a : Agent) (role : String) (content : String) :
    Except String Agent :=
  if role = "user" ∨ role = "system" ∨ role = "assistant" ∨ role = "tool" then
    .ok { a with memory := a.memory ++ [{ role := role, content := content }] }
  else
    .error ("Unsupported message role: " ++ role)

/-- The polymorphic `step()` operation of a concrete agent.  It receives the
(whole, mutable) agent and either returns the mutated agent together with its
text result, or raises; a raised exception carries the agent as mutated at
the moment of the raise (Python mutates `self` in place). -/
def StepFn : Type :=
  Agent → Except (String × Agent) (Agent × String)

/-- The loop body of `BaseAgent.run` (lines 213-228 of `base.py`):
while `current_step < max_steps` and `state != FINISHED`, increment
`current_step`, invoke `step()`, run stuck detection, and append
`"Step N: <result>"` to the result log.  `fuel` bounds the recursion; the
caller passes `max_steps + 1`, which is exact whenever `step` does not
rewrite `current_step` or `max_steps` (the hypotheses of the theorems
below).  The `trace` ghost output records the value of `current_step`
immediately after each increment. -/
def runLoop (step : StepFn) :
    Nat → Agent → List String → List Nat →
    Except (String × Agent) (Agent × List String × List Nat)
  | 0, a, res, tr => .ok (a, res, tr)
  | fuel + 1, a, res, tr =>
    if a.current_step < a.max_steps ∧ a.state ≠ AgentState.finished then
      let a1 := { a with current_step := a.current_step + 1 }
      match step a1 with
      | .error ea => .error ea
      | .ok (a2, r) =>
        let a3 := if is_stuck a2 then handle_stuck_state a2 else a2
        runLoop step fuel a3
          (res ++ ["Step " ++ toString a3.current_step ++ ": " ++ r])
          (tr ++ [a1.current_step])
    else
      .ok (a, res, tr)

/-- Everything observable about a normal return of `BaseAgent.run`:
the agent as the loop left it (before the cap reset, a ghost field used to
state which condition ended the loop), the agent as the caller sees it, the
result log, the joined output string, the ghost `current_step` trace, and
the number of `SANDBOX_CLIENT.cleanup()` invocations performed. -/
structure RunSuccess where
  loopAgent : Agent
  agent : Agent
  results : List String
  output : String
  trace : List Nat
  cleanups : Nat
deriving DecidableEq, Repr

/-- Everything observable about an exceptional exit of `BaseAgent.run`:
the error, the agent as the caller sees it at the moment the exception
propagates, and the number of `SANDBOX_CLIENT.cleanup()` invocations. -/
structure RunFailure where
  err : String
  agent : Agent
  cleanups : Nat
deriving DecidableEq, Repr

/-- `BaseAgent.run` (base.py lines 180-238), including the
`state_context(RUNNING)` wrapper (lines 93-132): save the previous state,
set RUNNING, run the loop; on an exception set ERROR in the `except` branch
and then — because the `finally` clause always runs afterwards — overwrite
the state with the saved previous state before the exception reaches the
caller; on normal exit likewise restore the previous state.  After the loop,
if `current_step >= max_steps`, reset `current_step` to 0, set state IDLE
and append the termination notice.  `SANDBOX_CLIENT.cleanup()` is invoked
only on the normal path (line 235 is not inside any try/finally). -/
def run (step : StepFn) (a : Agent) (request : String) :
    Except RunFailure RunSuccess :=
  if a.state ≠ AgentState.idle then
    .error { err := "Cannot run agent from state", agent := a, cleanups := 0 }
  else
    match (if request ≠ "" then update_memory a "user" request else .ok a) with
    | .error e => .error { err := e, agent := a, cleanups := 0 }
    | .ok a0 =>
      let prev := a0.state
      let aR := { a0 with state := AgentState.running }
      match runLoop step (a0.max_steps + 1) aR [] [] with
      | .error (e, aerr) =>
        let aE := { aerr with state := AgentState.error }
        let aF := { aE with state := prev }
        .error { err := e, agent := aF, cleanups := 0 }
      | .ok (aL, res, tr) =>
        let aC :=
          if aL.max_steps ≤ aL.current_step then
            { aL with current_step := 0, state := AgentState.idle }
          else aL
        let res2 :=
          if aL.max_steps ≤ aL.current_step then
            res ++ ["Terminated: Reached max steps (" ++ toString aL.max_steps ++ ")"]
          else res
        let aF := { aC with state := prev }
        .ok { loopAgent := aL, agent := aF, results := res2,
              output :=
                if res2 = [] then "No steps executed"
                else String.intercalate "\n" res2,
              trace := tr, cleanups := 1 }

/-- A `step()` implementation that honours the Steppable contract of the
spec: it may mutate state, memory and prompts but leaves the engine's
control counters `current_step` and `max_steps` alone. -/
def StepPreserves (step : StepFn) : Prop :=
  ∀ a a' r, step a = Except.ok (a', r) →
    a'.current_step = a.current_step ∧ a'.max_steps = a.max_steps

theorem handle_stuck_counters (a : Agent) :
    (handle_stuck_state a).current_step = a.current_step ∧
    (handle_stuck_state a).max_steps = a.max_steps := ⟨rfl, rfl⟩

end BaseAgent

namespace BaseAgent

/-- Invariant of the `run` while-loop: under the Steppable contract the
step counter never passes `max_steps`, every traced value is bounded by
`max_steps`, and on a normal exit the loop guard is false. -/
theorem runLoop_ok_spec (step : StepFn) (hp : StepPreserves step) (M : Nat) :
    ∀ fuel a res tr aL res' tr',
      a.max_steps = M → a.current_step ≤ M → M + 1 ≤ fuel + a.current_step →
      runLoop step fuel a res tr = .ok (aL, res', tr') →
      aL.max_steps = M ∧ aL.current_step ≤ M ∧
      (∀ n ∈ tr', n ∈ tr ∨ n ≤ M) ∧
      ¬(aL.current_step < aL.max_steps ∧ aL.state ≠ AgentState.finished) := by
  intro fuel
  induction fuel with
  | zero =>
    intro a res tr aL res' tr' hM hcs hfuel _
    omega
  | succ fuel ih =>
    intro a res tr aL res' tr' hM hcs hfuel hrun
    rw [runLoop] at hrun
    split at hrun
    next hg =>
      dsimp only at hrun
      split at hrun
      next ea heq => exact absurd hrun (by simp)
      next a2 r heq =>
        obtain ⟨h2cs, h2max⟩ := hp _ _ _ heq
        have h3 :
            (if is_stuck a2 then handle_stuck_state a2 else a2).current_step
              = a.current_step + 1 ∧
            (if is_stuck a2 then handle_stuck_state a2 else a2).max_steps = M := by
          split
          · exact ⟨(handle_stuck_counters a2).1.trans h2cs,
              (handle_stuck_counters a2).2.trans (h2max.trans hM)⟩
          · exact ⟨h2cs, h2max.trans hM⟩
        obtain ⟨hLmax, hLcs, htr, hguard⟩ :=
          ih _ _ _ _ _ _ h3.2 (by omega) (by omega) hrun
        refine ⟨hLmax, hLcs, ?_, hguard⟩
        intro n hn
        rcases htr n hn with h | h
        · rcases List.mem_append.mp h with h | h
          · exact Or.inl h
          · simp only [List.mem_singleton] at h
            subst h
            right
            have : a.current_step < M := by omega
            omega
        · exact Or.inr h
    next hg =>
      have h1 : aL = a ∧ res' = res ∧ tr' = tr := by
        simpa using hrun.symm
      obtain ⟨rfl, rfl, rfl⟩ := h1
      exact ⟨hM, hcs, fun n hn => Or.inl hn, hg⟩

end BaseAgent

/-- C1: starting `BaseAgent.run` from state IDLE with `current_step = 0`,
and with a `step()` that honours the Steppable contract (it does not rewrite
the engine's `current_step`/`max_steps` counters), `current_step` never
exceeds `max_steps` at any point of the run (every traced counter value is
bounded), and if the loop ended with the step cap (state not FINISHED at
loop exit) the run returns normally with `current_step` reset to 0 and state
IDLE. -/
theorem run_respects_step_cap (step : BaseAgent.StepFn) (a : Agent)
    (request : String) (out : BaseAgent.RunSuccess)
    (hp : BaseAgent.StepPreserves step)
    (hidle : a.state = AgentState.idle)
    (hcs : a.current_step = 0)
    (hok : BaseAgent.run step a request = .ok out) :
    (∀ n ∈ out.trace, n ≤ a.max_steps) ∧
    (out.loopAgent.state ≠ AgentState.finished →
      out.agent.current_step = 0 ∧ out.agent.state = AgentState.idle) := by
  rw [BaseAgent.run, if_neg (by simp [hidle])] at hok
  have hup : ∃ a0 : Agent,
      (if request ≠ "" then BaseAgent.update_memory a "user" request
       else .ok a) = .ok a0 ∧
      a0.state = a.state ∧ a0.current_step = a.current_step ∧
      a0.max_steps = a.max_steps := by
    split
    · refine ⟨{ a with memory := a.memory ++ [{ role := "user", content := request }] },
        ?_, rfl, rfl, rfl⟩
      simp [BaseAgent.update_memory]
    · exact ⟨a, rfl, rfl, rfl, rfl⟩
  obtain ⟨a0, heq0, hst0, hcs0, hmax0⟩ := hup
  rw [heq0] at hok
  dsimp only at hok
  cases hL : BaseAgent.runLoop step (a0.max_steps + 1)
      { a0 with state := AgentState.running } [] [] with
  | error ea =>
    rw [hL] at hok
    exact absurd hok (by simp)
  | ok v =>
    obtain ⟨aL, res, tr⟩ := v
    rw [hL] at hok
    obtain ⟨hLmax, hLcs, htr, hguard⟩ :=
      BaseAgent.runLoop_ok_spec step hp a.max_steps (a0.max_steps + 1)
        { a0 with state := AgentState.running } [] [] aL res tr
        hmax0 (by simp [hcs0, hcs]) (by omega) hL
    simp only [Except.ok.injEq] at hok
    subst hok
    constructor
    · intro n hn
      simp only at hn
      rcases htr n hn with h | h
      · exact absurd h (List.not_mem_nil n)
      · exact h
    · intro hfin
      simp only at hfin
      have hcap : aL.max_steps ≤ aL.current_step := by
        by_contra hlt
        exact hguard ⟨by omega, hfin⟩
      simp only [if_pos hcap]
      exact ⟨by simp, by simp [hst0, hidle]⟩

/-- A concrete Steppable-conformant `step()` that succeeds and leaves the
agent unchanged. -/
def stepOkFn : BaseAgent.StepFn := fun a => .ok (a, "ok")

theorem stepOkFn_preserves : BaseAgent.StepPreserves stepOkFn := by
  intro a a' r h
  simp only [stepOkFn, Except.ok.injEq, Prod.mk.injEq] at h
  obtain ⟨rfl, rfl⟩ := h
  exact ⟨rfl, rfl⟩

/-- A concrete `step()` that always raises, leaving the agent as it was. -/
def stepFailFn : BaseAgent.StepFn := fun a => .error ("step failure", a)

/-- A fresh agent with `max_steps = 2`. -/
def agentC1 : Agent :=
  { state := .idle, memory := [], next_step_prompt := none,
    current_step := 0, max_steps := 2, duplicate_threshold := 2 }

/-- The observable outcome of `run stepOkFn agentC1 "hi"`. -/
def runOutC1 : BaseAgent.RunSuccess :=
  { loopAgent :=
      { state := .running, memory := [{ role := "user", content := "hi" }],
        next_step_prompt := none, current_step := 2, max_steps := 2,
        duplicate_threshold := 2 }
    agent :=
      { state := .idle, memory := [{ role := "user", content := "hi" }],
        next_step_prompt := none, current_step := 0, max_steps := 2,
        duplicate_threshold := 2 }
    results := ["Step 1: ok", "Step 2: ok", "Terminated: Reached max steps (2)"]
    output := "Step 1: ok\nStep 2: ok\nTerminated: Reached max steps (2)"
    trace := [1, 2]
    cleanups := 1 }

/-- Witness for C1: a concrete cap-terminated run. -/
theorem run_respects_step_cap_witness :
    (∀ n ∈ runOutC1.trace, n ≤ agentC1.max_steps) ∧
    (runOutC1.loopAgent.state ≠ AgentState.finished →
      runOutC1.agent.current_step = 0 ∧ runOutC1.agent.state = AgentState.idle) :=
  run_respects_step_cap stepOkFn agentC1 "hi" runOutC1
    stepOkFn_preserves rfl rfl (by rfl)

namespace BaseAgent

/-- The optional initial `update_memory("user", request)` leaves the state
and the step counters untouched. -/
theorem update_if_counters (a : Agent) (request : String) (a0 : Agent)
    (h : (if request ≠ "" then update_memory a "user" request else .ok a)
        = .ok a0) :
    a0.state = a.state ∧ a0.current_step = a.current_step ∧
    a0.max_steps = a.max_steps := by
  split at h
  · rw [update_memory, if_pos (Or.inl rfl)] at h
    cases h
    exact ⟨rfl, rfl, rfl⟩
  · cases h
    exact ⟨rfl, rfl, rfl⟩

end BaseAgent

/-- Mirror of `agentC1` for exercising the exceptional paths. -/
def agentC2 : Agent :=
  { state := .idle, memory := [], next_step_prompt := none,
    current_step := 0, max_steps := 3, duplicate_threshold := 2 }

/-- The observable outcome of `run stepFailFn agentC2 ""`: the propagated
failure carries the agent with state IDLE (the ERROR written in the
`except` branch of `state_context` has already been overwritten by the
`finally` revert) and zero sandbox cleanups. -/
def runFailC2 : BaseAgent.RunFailure :=
  { err := "step failure"
    agent :=
      { state := .idle, memory := [], next_step_prompt := none,
        current_step := 1, max_steps := 3, duplicate_threshold := 2 }
    cleanups := 0 }

/-- C2 counterexample: an exception raised by the first `step()` propagates
out of `run`, but at the moment it reaches the caller the agent's state is
IDLE, not ERROR — the `finally` clause of `state_context` runs after the
`except` clause and overwrites the ERROR assignment with the saved previous
state. -/
theorem state_context_error_not_observable :
    BaseAgent.run stepFailFn agentC2 "" = .error runFailC2 ∧
    runFailC2.agent.state ≠ AgentState.error ∧
    runFailC2.agent.state = AgentState.idle :=
  ⟨by rfl, by decide, rfl⟩

/-- C2 (amended): `BaseAgent.run` restores the pre-RUNNING state on *every*
exit — on a normal exit and also when an exception propagates to the caller
(the transient ERROR assignment of `state_context` is immediately overwritten
by its `finally` revert, so the caller observes the previous state, not
ERROR). -/
theorem run_state_reverted (step : BaseAgent.StepFn) (a : Agent)
    (request : String) :
    (∀ f, BaseAgent.run step a request = .error f → f.agent.state = a.state) ∧
    (∀ out, BaseAgent.run step a request = .ok out →
      out.agent.state = a.state) := by
  constructor
  · intro f hf
    rw [BaseAgent.run] at hf
    split at hf
    · cases hf
      rfl
    · split at hf
      next e heq => cases hf; rfl
      next a0 heq0 =>
        dsimp only at hf
        split at hf
        next e aerr heqL =>
          cases hf
          exact (BaseAgent.update_if_counters a request a0 heq0).1
        next aL res tr heqL => exact absurd hf (by simp)
  · intro out hout
    rw [BaseAgent.run] at hout
    split at hout
    · exact absurd hout (by simp)
    · split at hout
      next e heq => exact absurd hout (by simp)
      next a0 heq0 =>
        dsimp only at hout
        split at hout
        next e aerr heqL => exact absurd hout (by simp)
        next aL res tr heqL =>
          cases hout
          exact (BaseAgent.update_if_counters a request a0 heq0).1

/-- Witness for C2 (amended): the concrete failing run of the C2
counterexample indeed surfaces with the original (IDLE) state. -/
theorem run_state_reverted_witness :
    runFailC2.agent.state = agentC2.state :=
  (run_state_reverted stepFailFn agentC2 "").1 runFailC2 (by rfl)

/-- A fresh agent with `max_steps = 1` for the cleanup claims. -/
def agentC6 : Agent :=
  { state := .idle, memory := [], next_step_prompt := none,
    current_step := 0, max_steps := 1, duplicate_threshold := 2 }

/-- The observable outcome of `run stepFailFn agentC6 ""`. -/
def runFailC6 : BaseAgent.RunFailure :=
  { err := "step failure"
    agent :=
      { state := .idle, memory := [], next_step_prompt := none,
        current_step := 1, max_steps := 1, duplicate_threshold := 2 }
    cleanups := 0 }

/-- The observable outcome of `run stepOkFn agentC6 ""`. -/
def runOutC6 : BaseAgent.RunSuccess :=
  { loopAgent :=
      { state := .running, memory := [], next_step_prompt := none,
        current_step := 1, max_steps := 1, duplicate_threshold := 2 }
    agent :=
      { state := .idle, memory := [], next_step_prompt := none,
        current_step := 0, max_steps := 1, duplicate_threshold := 2 }
    results := ["Step 1: ok", "Terminated: Reached max steps (1)"]
    output := "Step 1: ok\nTerminated: Reached max steps (1)"
    trace := [1]
    cleanups := 1 }

/-- C6 counterexample: when an exception raised inside the step loop
propagates out of `run`, `SANDBOX_CLIENT.cleanup()` is never invoked —
line 235 of `base.py` sits after the `async with` block with no
try/finally around it, so the exceptional exit path skips it. -/
theorem sandbox_cleanup_skipped_on_exception :
    BaseAgent.run stepFailFn agentC6 "" = .error runFailC6 ∧
    runFailC6.cleanups ≠ 1 :=
  ⟨by rfl, by decide⟩

/-- C6 (amended): `SANDBOX_CLIENT.cleanup()` is invoked exactly once on
every *normal* completion of `run`, and zero times on every exceptional
exit (both the non-IDLE precondition failure and a propagating step
exception). -/
theorem run_cleanup_on_normal_exit_only (step : BaseAgent.StepFn) (a : Agent)
    (request : String) :
    (∀ out, BaseAgent.run step a request = .ok out → out.cleanups = 1) ∧
    (∀ f, BaseAgent.run step a request = .error f → f.cleanups = 0) := by
  constructor
  · intro out hout
    rw [BaseAgent.run] at hout
    split at hout
    · exact absurd hout (by simp)
    · split at hout
      next e heq => exact absurd hout (by simp)
      next a0 heq0 =>
        dsimp only at hout
        split at hout
        next e aerr heqL => exact absurd hout (by simp)
        next aL res tr heqL => cases hout; rfl
  · intro f hf
    rw [BaseAgent.run] at hf
    split at hf
    · cases hf; rfl
    · split at hf
      next e heq => cases hf; rfl
      next a0 heq0 =>
        dsimp only at hf
        split at hf
        next e aerr heqL => cases hf; rfl
        next aL res tr heqL => exact absurd hf (by simp)

/-- Witness for C6 (amended): a concrete normal run performs exactly one
cleanup. -/
theorem run_cleanup_on_normal_exit_only_witness :
    runOutC6.cleanups = 1 :=
  (run_cleanup_on_normal_exit_only stepOkFn agentC6 "").1 runOutC6 (by rfl)

/-- The claim's characterization of stuck detection, written from the spec's
words with no guard on the memory length: the most recent message has
content, and the number of prior messages with role assistant and content
equal to the last message's content reaches `duplicate_threshold`. -/
def stuckSpec (msgs : List Message) (threshold : Int) : Bool :=
  match msgs.getLast? with
  | none => false
  | some last =>
    if last.content = "" then false
    else
      decide (((msgs.dropLast.filter
          (fun m => m.role == "assistant" && m.content == last.content)).length : Int)
        ≥ threshold)

/-- An agent with a single assistant message and `duplicate_threshold = 0`. -/
def agentC5zero : Agent :=
  { state := .idle, memory := [{ role := "assistant", content := "x" }],
    next_step_prompt := none, current_step := 0, max_steps := 10,
    duplicate_threshold := 0 }

/-- Three assistant messages with identical content, threshold 2. -/
def agentC5three : Agent :=
  { state := .idle,
    memory := [{ role := "assistant", content := "loop" },
               { role := "assistant", content := "loop" },
               { role := "assistant", content := "loop" }],
    next_step_prompt := none, current_step := 0, max_steps := 10,
    duplicate_threshold := 2 }

/-- Two assistant messages with identical content, threshold 2. -/
def agentC5two : Agent :=
  { state := .idle,
    memory := [{ role := "assistant", content := "loop" },
               { role := "assistant", content := "loop" }],
    next_step_prompt := none, current_step := 0, max_steps := 10,
    duplicate_threshold := 2 }

/-- C5 counterexample: with `duplicate_threshold = 0` and a single assistant
message with content, the claim's characterization (count of prior
duplicates at least the threshold) holds, yet `is_stuck` returns false
because of its `len(messages) < 2` early return. -/
theorem is_stuck_zero_threshold_counterexample :
    BaseAgent.is_stuck agentC5zero = false ∧
    stuckSpec agentC5zero.memory agentC5zero.duplicate_threshold = true :=
  ⟨rfl, rfl⟩

/-- Helper: for positive thresholds the `len < 2` guard of `is_stuck` is
redundant and the function agrees with the claim's characterization. -/
theorem is_stuck_eq_spec (a : Agent) (h1 : 1 ≤ a.duplicate_threshold) :
    BaseAgent.is_stuck a = stuckSpec a.memory a.duplicate_threshold := by
  obtain ⟨st, mem, pr, cs, ms, dt⟩ := a
  simp only at h1 ⊢
  rw [BaseAgent.is_stuck, stuckSpec]
  match mem with
  | [] => rfl
  | [m] =>
    rw [if_pos (by simp)]
    have hl : ([m] : List Message).getLast? = some m := rfl
    rw [hl]
    split
    · rfl
    · simp
      intro _
      omega
  | m1 :: m2 :: tl =>
    rw [if_neg (by simp)]

/-- C5 (amended): for every agent whose `duplicate_threshold` is at least 1
(the default is 2), `is_stuck` returns true exactly when the most recent
message has content and the count of prior messages with role assistant and
identical content reaches the threshold; in particular with threshold 2,
three identical assistant messages trigger detection and two do not.  (For
threshold 0 the `len < 2` guard makes the code deviate, see the
counterexample.) -/
theorem is_stuck_threshold_exact :
    (∀ a : Agent, 1 ≤ a.duplicate_threshold →
      BaseAgent.is_stuck a = stuckSpec a.memory a.duplicate_threshold) ∧
    BaseAgent.is_stuck agentC5three = true ∧
    BaseAgent.is_stuck agentC5two = false :=
  ⟨fun a h1 => is_stuck_eq_spec a h1, rfl, rfl⟩

/-- Witness for C5 (amended): instantiating the equivalence at a concrete
agent with the default threshold 2. -/
theorem is_stuck_threshold_exact_witness :
    BaseAgent.is_stuck agentC5three
      = stuckSpec agentC5three.memory agentC5three.duplicate_threshold :=
  is_stuck_threshold_exact.1 agentC5three (by decide)

/-! ## Planning orchestrator (`app/flow/planning.py`) -/

namespace PlanStepStatus

/-- `PlanStepStatus.get_all_statuses` (planning.py lines 27-30): the enum
values in declaration order. -/
def get_all_statuses : List String :=
  ["not_started", "in_progress", "completed", "blocked"]

/-- `PlanStepStatus.get_active_statuses` (planning.py lines 32-35). -/
def get_active_statuses : List String :=
  ["not_started", "in_progress"]

/-- `PlanStepStatus.get_status_marks` (planning.py lines 37-45), as an
association list in the dict's insertion order. -/
def get_status_marks : List (String × String) :=
  [("completed", "[✓]"), ("in_progress", "[→]"),
   ("blocked", "[!]"), ("not_started", "[ ]")]

end PlanStepStatus

/-- The status of step `i` in `_get_current_step_info` (planning.py lines
280-284): `step_statuses[i]` when the index is in range, NOT_STARTED
otherwise. -/
def statusOfIndex (step_statuses : List String) (i : Nat) : String :=
  match step_statuses.get? i with
  | some s => s
  | none => "not_started"

/-- The scan of `_get_current_step_info` (planning.py lines 280-319)
restricted to its selection result: walk the step indices in order and stop
at the first whose status is active.  `n` counts the steps left to scan. -/
def findActiveIndexAux (step_statuses : List String) : Nat → Nat → Option Nat
  | 0, _ => none
  | n + 1, i =>
    if statusOfIndex step_statuses i ∈ PlanStepStatus.get_active_statuses then
      some i
    else
      findActiveIndexAux step_statuses n (i + 1)

/-- The index selected by `PlanningFlow._get_current_step_info` for a stored
plan with the given steps and statuses (`none` models the `(None, None)`
return). -/
def PlanningFlow.findActiveIndex (steps step_statuses : List String) :
    Option Nat :=
  findActiveIndexAux step_statuses steps.length 0

theorem findActiveIndexAux_some (sts : List String) :
    ∀ n start i, findActiveIndexAux sts n start = some i →
      start ≤ i ∧ i < start + n ∧
      statusOfIndex sts i ∈ PlanStepStatus.get_active_statuses ∧
      ∀ j, start ≤ j → j < i →
        statusOfIndex sts j ∉ PlanStepStatus.get_active_statuses := by
  intro n
  induction n with
  | zero =>
    intro start i h
    exact absurd h (by simp [findActiveIndexAux])
  | succ n ih =>
    intro start i h
    rw [findActiveIndexAux] at h
    split at h
    next hc =>
      cases h
      exact ⟨le_refl _, by omega, hc,
        fun j hj1 hj2 => absurd hj2 (by omega)⟩
    next hc =>
      obtain ⟨h1, h2, h3, h4⟩ := ih (start + 1) i h
      refine ⟨by omega, by omega, h3, fun j hj1 hj2 => ?_⟩
      rcases Nat.eq_or_lt_of_le hj1 with rfl | hlt
      · exact hc
      · exact h4 j (by omega) hj2

theorem findActiveIndexAux_none (sts : List String) :
    ∀ n start, findActiveIndexAux sts n start = none ↔
      ∀ i, start ≤ i → i < start + n →
        statusOfIndex sts i ∉ PlanStepStatus.get_active_statuses := by
  intro n
  induction n with
  | zero =>
    intro start
    simp only [findActiveIndexAux]
    constructor
    · intro _ i h1 h2
      exact absurd h2 (by omega)
    · intro _
      trivial
  | succ n ih =>
    intro start
    rw [findActiveIndexAux]
    split
    next hc =>
      constructor
      · intro h
        exact absurd h (by simp)
      · intro h
        exact absurd hc (h start (le_refl _) (by omega))
    next hc =>
      rw [ih (start + 1)]
      constructor
      · intro h i h1 h2
        rcases Nat.eq_or_lt_of_le h1 with rfl | hlt
        · exact hc
        · exact h i (by omega) (by omega)
      · intro h i h1 h2
        exact h i (by omega) (by omega)

theorem statusOfIndex_mem_or_default (sts : List String) (i : Nat) :
    statusOfIndex sts i ∈ sts ∨ statusOfIndex sts i = "not_started" := by
  rw [statusOfIndex]
  cases h : sts.get? i with
  | none => exact Or.inr rfl
  | some s => exact Or.inl (List.get?_mem h)

/-- A well-formed status that is not active is COMPLETED or BLOCKED. -/
theorem not_active_cases (sts : List String)
    (hwf : ∀ s ∈ sts, s ∈ PlanStepStatus.get_all_statuses) (i : Nat)
    (h : statusOfIndex sts i ∉ PlanStepStatus.get_active_statuses) :
    statusOfIndex sts i = "completed" ∨ statusOfIndex sts i = "blocked" := by
  rcases statusOfIndex_mem_or_default sts i with hmem | hdef
  · have hall := hwf _ hmem
    simp only [PlanStepStatus.get_all_statuses, List.mem_cons,
      List.mem_singleton, List.not_mem_nil, or_false] at hall
    simp only [PlanStepStatus.get_active_statuses, List.mem_cons,
      List.mem_singleton, List.not_mem_nil, or_false, not_or] at h
    tauto
  · exfalso
    apply h
    rw [hdef]
    simp [PlanStepStatus.get_active_statuses]

/-- C4: `_get_current_step_info` selects the lowest index whose status
(defaulting to NOT_STARTED beyond the end of `step_statuses`) is
NOT_STARTED or IN_PROGRESS, and returns no current step exactly when every
step's status is COMPLETED or BLOCKED. -/
theorem get_current_step_selection (steps step_statuses : List String)
    (hwf : ∀ s ∈ step_statuses, s ∈ PlanStepStatus.get_all_statuses) :
    (∀ i, PlanningFlow.findActiveIndex steps step_statuses = some i →
      i < steps.length ∧
      (statusOfIndex step_statuses i = "not_started" ∨
        statusOfIndex step_statuses i = "in_progress") ∧
      (∀ j < i, statusOfIndex step_statuses j = "completed" ∨
        statusOfIndex step_statuses j = "blocked")) ∧
    (PlanningFlow.findActiveIndex steps step_statuses = none ↔
      ∀ i < steps.length,
        statusOfIndex step_statuses i = "completed" ∨
        statusOfIndex step_statuses i = "blocked") := by
  constructor
  · intro i h
    obtain ⟨h1, h2, h3, h4⟩ := findActiveIndexAux_some step_statuses
      steps.length 0 i h
    refine ⟨by omega, ?_, fun j hj => ?_⟩
    · simpa [PlanStepStatus.get_active_statuses] using h3
    · exact not_active_cases step_statuses hwf j (h4 j (Nat.zero_le j) hj)
  · rw [PlanningFlow.findActiveIndex, findActiveIndexAux_none]
    constructor
    · intro h i hi
      exact not_active_cases step_statuses hwf i (h i (Nat.zero_le i) (by omega))
    · intro h i _ hi
      rcases h i (by omega) with hc | hc <;>
        simp [hc, PlanStepStatus.get_active_statuses]

/-- Witness for C4: a three-step plan with statuses
COMPLETED / IN_PROGRESS / NOT_STARTED (selection yields index 1). -/
theorem get_current_step_selection_witness :
    (∀ i, PlanningFlow.findActiveIndex ["a", "b", "c"]
        ["completed", "in_progress", "not_started"] = some i →
      i < (["a", "b", "c"] : List String).length ∧
      (statusOfIndex ["completed", "in_progress", "not_started"] i = "not_started" ∨
        statusOfIndex ["completed", "in_progress", "not_started"] i = "in_progress") ∧
      (∀ j < i, statusOfIndex ["completed", "in_progress", "not_started"] j = "completed" ∨
        statusOfIndex ["completed", "in_progress", "not_started"] j = "blocked")) ∧
    (PlanningFlow.findActiveIndex ["a", "b", "c"]
        ["completed", "in_progress", "not_started"] = none ↔
      ∀ i < (["a", "b", "c"] : List String).length,
        statusOfIndex ["completed", "in_progress", "not_started"] i = "completed" ∨
        statusOfIndex ["completed", "in_progress", "not_started"] i = "blocked") :=
  get_current_step_selection ["a", "b", "c"]
    ["completed", "in_progress", "not_started"] (by decide)

/-- Python's `f"{x:.1f}"` applied to the nonnegative fraction `num/den`
(`den > 0`), as used for the progress percentage: one decimal digit,
rounding half-up on the exact rational value.  (CPython rounds the
underlying binary double half-to-even; at every value appearing in the
claims — multiples of 1/3, 1/4 and 0 — the two agree.) -/
def format1fFrac (num den : Int) : String :=
  let n : Int := Int.fdiv (num * 20 + den) (den * 2)
  toString (Int.fdiv n 10) ++ "." ++ toString (Int.fmod n 10)

/-- The step-list section of `_generate_plan_text_from_storage` (planning.py
lines 477-487): `zip` of steps, statuses and notes (stopping at the
shortest), each line `<i>. <mark> <step>`, with a Notes line when the notes
are non-empty; unknown statuses fall back to the NOT_STARTED mark. -/
def planStepLines : Nat → List String → List String → List String → String
  | _, [], _, _ => ""
  | _, _ :: _, [], _ => ""
  | _, _ :: _, _ :: _, [] => ""
  | i, step :: steps, status :: sts, notes :: nts =>
    let mark := (PlanStepStatus.get_status_marks.lookup status).getD "[ ]"
    toString i ++ ". " ++ mark ++ " " ++ step ++ "\n" ++
    (if notes ≠ "" then "   Notes: " ++ notes ++ "\n" else "") ++
    planStepLines (i + 1) steps sts nts

/-- `PlanningFlow._generate_plan_text_from_storage` (planning.py lines
420-489) for a stored plan: pad statuses/notes to the number of steps,
count statuses, render the header (the `=` ruler repeats to the length of
the header line *including* its newline character), the progress line
(`(completed/total)*100` formatted with one decimal, 0 when there are no
steps), the status-count line, and the step list. -/
def PlanningFlow.generate_plan_text_from_storage (plan_id title : String)
    (steps step_statuses step_notes : List String) : String :=
  let sts := step_statuses ++
    List.replicate (steps.length - step_statuses.length) "not_started"
  let nts := step_notes ++
    List.replicate (steps.length - step_notes.length) ""
  let countOf := fun s => (sts.filter (· == s)).length
  let completed := countOf "completed"
  let total := steps.length
  let header := "Plan: " ++ title ++ " (ID: " ++ plan_id ++ ")\n"
  header ++ String.mk (List.replicate header.length '=') ++ "\n\n" ++
  "Progress: " ++ toString completed ++ "/" ++ toString total ++
    " steps completed (" ++
    (if total > 0 then format1fFrac ((completed : Int) * 100) (total : Int)
     else format1fFrac 0 1) ++ "%)\n" ++
  "Status: " ++ toString completed ++ " completed, " ++
    toString (countOf "in_progress") ++ " in progress, " ++
    toString (countOf "blocked") ++ " blocked, " ++
    toString (countOf "not_started") ++ " not started\n\n" ++
  "Steps:\n" ++
  planStepLines 0 steps sts nts

/-- `t` contains `line` as one full (newline-delimited, non-initial) line. -/
def containsLine (t line : String) : Prop :=
  ∃ pre post, t = pre ++ ("\n" ++ line ++ "\n") ++ post

/-- C9: the rendering of steps `["a","b","c"]` with statuses
COMPLETED / IN_PROGRESS / NOT_STARTED contains the progress line
`Progress: 1/3 steps completed (33.3%)` and marks step 1 with `[→]`;
a zero-step plan reports `0.0%`; and each of the four statuses renders
with its mark `[✓]` / `[→]` / `[!]` / `[ ]`. -/
theorem plan_text_rendering :
    containsLine
      (PlanningFlow.generate_plan_text_from_storage "plan_123" "Demo"
        ["a", "b", "c"] ["completed", "in_progress", "not_started"] [])
      "Progress: 1/3 steps completed (33.3%)" ∧
    containsLine
      (PlanningFlow.generate_plan_text_from_storage "plan_123" "Demo"
        ["a", "b", "c"] ["completed", "in_progress", "not_started"] [])
      "1. [→] b" ∧
    containsLine
      (PlanningFlow.generate_plan_text_from_storage "p0" "Empty" [] [] [])
      "Progress: 0/0 steps completed (0.0%)" ∧
    containsLine
      (PlanningFlow.generate_plan_text_from_storage "p4" "Marks"
        ["w", "x", "y", "z"]
        ["completed", "in_progress", "blocked", "not_started"] [])
      "0. [✓] w" ∧
    containsLine
      (PlanningFlow.generate_plan_text_from_storage "p4" "Marks"
        ["w", "x", "y", "z"]
        ["completed", "in_progress", "blocked", "not_started"] [])
      "1. [→] x" ∧
    containsLine
      (PlanningFlow.generate_plan_text_from_storage "p4" "Marks"
        ["w", "x", "y", "z"]
        ["completed", "in_progress", "blocked", "not_started"] [])
      "2. [!] y" ∧
    containsLine
      (PlanningFlow.generate_plan_text_from_storage "p4" "Marks"
        ["w", "x", "y", "z"]
        ["completed", "in_progress", "blocked", "not_started"] [])
      "3. [ ] z" :=
  ⟨⟨"Plan: Demo (ID: plan_123)\n==========================\n",
    "Status: 1 completed, 1 in progress, 0 blocked, 1 not started\n\nSteps:\n0. [✓] a\n1. [→] b\n2. [ ] c\n",
    by rfl⟩,
   ⟨"Plan: Demo (ID: plan_123)\n==========================\n\nProgress: 1/3 steps completed (33.3%)\nStatus: 1 completed, 1 in progress, 0 blocked, 1 not started\n\nSteps:\n0. [✓] a",
    "2. [ ] c\n", by rfl⟩,
   ⟨"Plan: Empty (ID: p0)\n=====================\n",
    "Status: 0 completed, 0 in progress, 0 blocked, 0 not started\n\nSteps:\n",
    by rfl⟩,
   ⟨"Plan: Marks (ID: p4)\n=====================\n\nProgress: 1/4 steps completed (25.0%)\nStatus: 1 completed, 1 in progress, 1 blocked, 1 not started\n\nSteps:",
    "1. [→] x\n2. [!] y\n3. [ ] z\n", by rfl⟩,
   ⟨"Plan: Marks (ID: p4)\n=====================\n\nProgress: 1/4 steps completed (25.0%)\nStatus: 1 completed, 1 in progress, 1 blocked, 1 not started\n\nSteps:\n0. [✓] w",
    "2. [!] y\n3. [ ] z\n", by rfl⟩,
   ⟨"Plan: Marks (ID: p4)\n=====================\n\nProgress: 1/4 steps completed (25.0%)\nStatus: 1 completed, 1 in progress, 1 blocked, 1 not started\n\nSteps:\n0. [✓] w\n1. [→] x",
    "3. [ ] z\n", by rfl⟩,
   ⟨"Plan: Marks (ID: p4)\n=====================\n\nProgress: 1/4 steps completed (25.0%)\nStatus: 1 completed, 1 in progress, 1 blocked, 1 not started\n\nSteps:\n0. [✓] w\n1. [→] x\n2. [!] y",
    "", by rfl⟩⟩

/-! ## Token accounting (`app/llm.py`, `TokenCounter`) -/

/-- Python `int()` applied to an exact rational: truncation toward zero. -/
def pytrunc (q : Rat) : Int :=
  if q ≥ 0 then Int.floor q else Int.ceil q

namespace TokenCounter

/-- Step 1 of `TokenCounter._calculate_high_detail_tokens` (llm.py lines
139-143): only when a side exceeds `MAX_SIZE = 2048`, scale both sides by
`2048 / max(width, height)` and truncate each to `int`. -/
def prescale (width height : Int) : Int × Int :=
  if width > 2048 ∨ height > 2048 then
    let scale : Rat := 2048 / ((max width height : Int) : Rat)
    (pytrunc ((width : Rat) * scale), pytrunc ((height : Rat) * scale))
  else (width, height)

/-- `TokenCounter._calculate_high_detail_tokens` (llm.py lines 129-158):
after the prescale, scale so the shorter side becomes
`HIGH_DETAIL_TARGET_SHORT_SIDE = 768` (truncating each scaled side to
`int`), count `TILE_SIZE = 512` tiles with `math.ceil`, and charge
`170` per tile plus the base `85`.  Python's float arithmetic is modelled
by exact rationals. -/
def calculate_high_detail_tokens (width height : Int) : Int :=
  let p := prescale width height
  let scale : Rat := 768 / ((min p.1 p.2 : Int) : Rat)
  let scaled_width := pytrunc ((p.1 : Rat) * scale)
  let scaled_height := pytrunc ((p.2 : Rat) * scale)
  Int.ceil ((scaled_width : Rat) / 512) * Int.ceil ((scaled_height : Rat) / 512)
    * 170 + 85

/-- `TokenCounter.count_image` (llm.py lines 86-127): detail defaults to
`"medium"`; `"low"` costs a flat 85; `"high"`/`"medium"` with known
dimensions use the tiling computation; `"high"` without dimensions uses the
1024x1024 default; `"medium"` without dimensions and every unrecognized
label cost a flat 1024. -/
def count_image (detail? : Option String) (dims : Option (Int × Int)) : Int :=
  let detail := detail?.getD "medium"
  if detail = "low" then 85
  else
    match dims with
    | some (w, hgt) =>
      if detail = "high" ∨ detail = "medium" then
        calculate_high_detail_tokens w hgt
      else 1024
    | none =>
      if detail = "high" then calculate_high_detail_tokens 1024 1024
      else if detail = "medium" then 1024
      else 1024

end TokenCounter

/-- The tiling formula exactly as the spec words it, in exact real
arithmetic with no intermediate truncation to integers: scale so neither
side exceeds 2048, rescale so the shorter side equals 768, then
`ceil(w/512) * ceil(h/512) * 170 + 85`. -/
def specTilingTokens (width height : Rat) : Int :=
  let p :=
    if width > 2048 ∨ height > 2048 then
      let scale := 2048 / max width height
      (width * scale, height * scale)
    else (width, height)
  let scale := 768 / min p.1 p.2
  Int.ceil (p.1 * scale / 512) * Int.ceil (p.2 * scale / 512) * 170 + 85

/-- The amended step 1: as the spec's, with each scaled side truncated to an
integer (floor, the dimensions being nonnegative), as `int()` does. -/
def amendedPrescale (width height : Int) : Int × Int :=
  if width > 2048 ∨ height > 2048 then
    let scale : Rat := 2048 / ((max width height : Int) : Rat)
    (⌊(width : Rat) * scale⌋, ⌊(height : Rat) * scale⌋)
  else (width, height)

/-- The amended tiling formula: the spec's two scaling steps and tile count,
but with each scaled dimension truncated to an integer after each scaling
step before the tiles are counted. -/
def amendedTilingTokens (width height : Int) : Int :=
  let p := amendedPrescale width height
  let scale : Rat := 768 / ((min p.1 p.2 : Int) : Rat)
  let scaled_width := ⌊(p.1 : Rat) * scale⌋
  let scaled_height := ⌊(p.2 : Rat) * scale⌋
  Int.ceil ((scaled_width : Rat) / 512) * Int.ceil ((scaled_height : Rat) / 512)
    * 170 + 85

theorem pytrunc_of_nonneg (q : Rat) (h : 0 ≤ q) : pytrunc q = ⌊q⌋ := if_pos h

theorem prescale_eq_amended (w h : Int) (hw : 0 < w) (hh : 0 < h) :
    TokenCounter.prescale w h = amendedPrescale w h := by
  rw [TokenCounter.prescale, amendedPrescale]
  split
  next hgt =>
    dsimp only
    have hmax : (0 : Rat) < ((max w h : Int) : Rat) := by
      have : (0 : Int) < max w h := lt_max_iff.mpr (Or.inl hw)
      exact_mod_cast this
    have hs : (0 : Rat) ≤ 2048 / ((max w h : Int) : Rat) :=
      div_nonneg (by norm_num) hmax.le
    have h1 : (0 : Rat) ≤ (w : Rat) * (2048 / ((max w h : Int) : Rat)) :=
      mul_nonneg (by exact_mod_cast hw.le) hs
    have h2 : (0 : Rat) ≤ (h : Rat) * (2048 / ((max w h : Int) : Rat)) :=
      mul_nonneg (by exact_mod_cast hh.le) hs
    rw [pytrunc_of_nonneg _ h1, pytrunc_of_nonneg _ h2]
  next => rfl

theorem amendedPrescale_nonneg (w h : Int) (hw : 0 < w) (hh : 0 < h) :
    0 ≤ (amendedPrescale w h).1 ∧ 0 ≤ (amendedPrescale w h).2 := by
  rw [amendedPrescale]
  split
  next hgt =>
    dsimp only
    have hmax : (0 : Rat) < ((max w h : Int) : Rat) := by
      have : (0 : Int) < max w h := lt_max_iff.mpr (Or.inl hw)
      exact_mod_cast this
    have hs : (0 : Rat) ≤ 2048 / ((max w h : Int) : Rat) :=
      div_nonneg (by norm_num) hmax.le
    exact ⟨Int.floor_nonneg.mpr (mul_nonneg (by exact_mod_cast hw.le) hs),
      Int.floor_nonneg.mpr (mul_nonneg (by exact_mod_cast hh.le) hs)⟩
  next => exact ⟨hw.le, hh.le⟩

theorem calc_eq_amended (w h : Int) (hw : 0 < w) (hh : 0 < h) :
    TokenCounter.calculate_high_detail_tokens w h = amendedTilingTokens w h := by
  rw [TokenCounter.calculate_high_detail_tokens, amendedTilingTokens,
    prescale_eq_amended w h hw hh]
  obtain ⟨h1, h2⟩ := amendedPrescale_nonneg w h hw hh
  have hmin : (0 : Int) ≤ min (amendedPrescale w h).1 (amendedPrescale w h).2 :=
    le_min h1 h2
  have hs : (0 : Rat) ≤ 768 /
      ((min (amendedPrescale w h).1 (amendedPrescale w h).2 : Int) : Rat) :=
    div_nonneg (by norm_num) (by exact_mod_cast hmin)
  rw [pytrunc_of_nonneg _ (mul_nonneg (by exact_mod_cast h1) hs),
    pytrunc_of_nonneg _ (mul_nonneg (by exact_mod_cast h2) hs)]

theorem calc_1024_1024 :
    TokenCounter.calculate_high_detail_tokens 1024 1024 = 765 := by
  have h1 : ⌈(3 : ℚ) / 2⌉ = 2 := by
    rw [Int.ceil_eq_iff]
    norm_num
  norm_num [TokenCounter.calculate_high_detail_tokens, TokenCounter.prescale,
    pytrunc, h1]

/-- C8 counterexample: at `detail = "high"` with dimensions 683x512 the code
truncates the scaled long side `683 * 1.5 = 1024.5` to `1024` before tiling
(2x2 tiles, 765 tokens), whereas the claim's tiling formula — with no
intermediate truncation — counts `ceil(1024.5/512) = 3` tile columns
(2x3 tiles, 1105 tokens). -/
theorem count_image_tiling_formula_counterexample :
    TokenCounter.count_image (some "high") (some (683, 512)) = 765 ∧
    specTilingTokens 683 512 = 1105 ∧ (765 : Int) ≠ 1105 := by
  refine ⟨?_, ?_, by decide⟩
  · show TokenCounter.calculate_high_detail_tokens 683 512 = 765
    have h1 : ⌈(3 : ℚ) / 2⌉ = 2 := by
      rw [Int.ceil_eq_iff]
      norm_num
    have h2 : ⌈(2 : ℚ)⌉ = 2 := by
      rw [Int.ceil_eq_iff]
      norm_num
    norm_num [TokenCounter.calculate_high_detail_tokens, TokenCounter.prescale,
      pytrunc, h1, h2]
  · have h1 : ⌈(3 : ℚ) / 2⌉ = 2 := by
      rw [Int.ceil_eq_iff]
      norm_num
    have h2 : ⌈(2049 : ℚ) / 1024⌉ = 3 := by
      rw [Int.ceil_eq_iff]
      norm_num
    norm_num [specTilingTokens, h1, h2]

/-- C8 (amended): `count_image` is a pure function of (detail, width,
height): `"low"` costs 85 regardless of dimensions; `"high"` at 1024x1024
and `"high"` with unknown dimensions cost 765; `"medium"` with unknown
dimensions, a missing detail, and any unrecognized label cost 1024; and for
known positive dimensions the value follows the tiling formula with each
scaled dimension truncated to an integer after each scaling step. -/
theorem count_image_spec :
    (∀ dims, TokenCounter.count_image (some "low") dims = 85) ∧
    TokenCounter.count_image (some "high") (some (1024, 1024)) = 765 ∧
    TokenCounter.count_image (some "high") none = 765 ∧
    TokenCounter.count_image (some "medium") none = 1024 ∧
    TokenCounter.count_image none none = 1024 ∧
    (∀ d dims, d ≠ "low" → d ≠ "high" → d ≠ "medium" →
      TokenCounter.count_image (some d) dims = 1024) ∧
    (∀ w h : Int, 0 < w → 0 < h →
      TokenCounter.count_image (some "high") (some (w, h))
        = amendedTilingTokens w h) := by
  refine ⟨fun dims => rfl, ?_, ?_, rfl, rfl, ?_, ?_⟩
  · show TokenCounter.calculate_high_detail_tokens 1024 1024 = 765
    exact calc_1024_1024
  · show TokenCounter.calculate_high_detail_tokens 1024 1024 = 765
    exact calc_1024_1024
  · intro d dims h1 h2 h3
    rcases dims with _ | ⟨w, hgt⟩ <;>
      simp [TokenCounter.count_image, h1, h2, h3]
  · intro w h hw hh
    show TokenCounter.calculate_high_detail_tokens w h = amendedTilingTokens w h
    exact calc_eq_amended w h hw hh

/-- Witness for C8 (amended): the truncating tiling formula evaluated at the
counterexample's dimensions. -/
theorem count_image_spec_witness :
    TokenCounter.count_image (some "high") (some (683, 512))
      = amendedTilingTokens 683 512 :=
  count_image_spec.2.2.2.2.2.2 683 512 (by norm_num) (by norm_num)

/-! ## Model request gateway (`app/llm.py`, `LLM`) -/

/-- The Python exceptions that flow through `LLM.ask` / `ask_tool`. -/
inductive PyExc where
  | tokenLimitExceeded (msg : String)
  | valueError (msg : String)
  | openAIError (msg : String)
  | otherError (msg : String)
deriving DecidableEq, Repr

def PyExc.message : PyExc → String
  | .tokenLimitExceeded m => m
  | .valueError m => m
  | .openAIError m => m
  | .otherError m => m

/-- `isinstance(e, OpenAIError)`. -/
def PyExc.isOpenAIError : PyExc → Bool
  | .openAIError _ => true
  | _ => false

/-- `isinstance(e, ValueError)`. -/
def PyExc.isValueError : PyExc → Bool
  | .valueError _ => true
  | _ => false

/-- `isinstance(e, Exception)`.  Modelled from the spec: `TokenLimitExceeded`
is declared in `app/exceptions.py`, which is not among the three source
files; like every raisable Python application error (and like `OpenAIError`
and `ValueError`) it derives from `Exception`, so the check holds for every
modelled exception. -/
def PyExc.isException : PyExc → Bool := fun _ => true

/-- The retry predicate installed by the `@retry` decorator on `LLM.ask`
(llm.py lines 472-478):
`retry_if_exception_type((OpenAIError, Exception, ValueError))` — an
exception is retried iff it is an instance of any of the three classes. -/
def askRetryPredicate (e : PyExc) : Bool :=
  e.isOpenAIError || e.isException || e.isValueError

/-- tenacity's attempt loop under `stop_after_attempt`: attempt number `k`
runs the body; on an exception matched by the predicate another attempt is
made while attempts remain (`r` counts the attempts still permitted,
including the current one); the returned `Nat` is the number of attempts
actually made. -/
def tenacityAttempts {A : Type} (shouldRetry : PyExc → Bool)
    (body : Nat → Except PyExc A) : Nat → Nat → Nat × Except PyExc A
  | 0, k => (k, body k)
  | 1, k => (k, body k)
  | r + 2, k =>
    match body k with
    | .ok v => (k, .ok v)
    | .error e =>
      if shouldRetry e then tenacityAttempts shouldRetry body (r + 1) (k + 1)
      else (k, .error e)

/-- A call through tenacity with `stop_after_attempt stopAfter`. -/
def tenacityCall {A : Type} (shouldRetry : PyExc → Bool) (stopAfter : Nat)
    (body : Nat → Except PyExc A) : Nat × Except PyExc A :=
  tenacityAttempts shouldRetry body stopAfter 1

/-- One item of a multimodal content list: a `{"text": ...}` part or an
`{"image_url": ...}` part (with the optional `detail` and `dimensions` keys
`TokenCounter.count_image` reads). -/
inductive ContentItem where
  | text (s : String)
  | image (url : String) (detail : Option String) (dims : Option (Int × Int))
deriving DecidableEq, Repr

/-- A message `content` value: a plain string or a list of parts. -/
inductive PyContent where
  | str (s : String)
  | parts (items : List ContentItem)
deriving DecidableEq, Repr

/-- The `function` payload of a tool call dict. -/
structure PyFunc where
  name : Option String
  arguments : Option String
deriving DecidableEq, Repr

/-- One tool-call dict (the `function` key may be absent). -/
structure PyToolCall where
  function : Option PyFunc
deriving DecidableEq, Repr

/-- A message dict as `format_messages` and `count_message_tokens` see it;
`none` models an absent key. -/
structure DictMessage where
  role : String
  content : Option PyContent
  base64_image : Option String
  tool_calls : Option (List PyToolCall)
  name : Option String
  tool_call_id : Option String
deriving DecidableEq, Repr

namespace TokenCounter

/-- `TokenCounter.count_text` (llm.py lines 75-84): 0 for a falsy string,
otherwise the tokenizer's token count (`enc`, the length of
`tokenizer.encode(text)`). -/
def count_text (enc : String → Nat) (text : String) : Int :=
  if text = "" then 0 else (enc text : Int)

/-- `TokenCounter.count_content` (llm.py lines 160-186). -/
def count_content (enc : String → Nat) (content : Option PyContent) : Int :=
  match content with
  | none => 0
  | some (.str s) => count_text enc s
  | some (.parts items) =>
    (items.map (fun it =>
      match it with
      | .text s => count_text enc s
      | .image _ detail dims => count_image detail dims)).sum

/-- `TokenCounter.count_tool_calls` (llm.py lines 188-203). -/
def count_tool_calls (enc : String → Nat) (tcs : List PyToolCall) : Int :=
  (tcs.map (fun tc =>
    match tc.function with
    | some f => count_text enc (f.name.getD "")
        + count_text enc (f.arguments.getD "")
    | none => 0)).sum

/-- `TokenCounter.count_message_tokens` (llm.py lines 205-238):
`FORMAT_TOKENS = 2` once, plus per message `BASE_MESSAGE_TOKENS = 4`, the
role, content, tool-call, name and tool_call_id token counts. -/
def count_message_tokens (enc : String → Nat)
    (messages : List DictMessage) : Int :=
  2 + (messages.map (fun m =>
    4 + count_text enc m.role + count_content enc m.content +
    (match m.tool_calls with
     | some tcs => count_tool_calls enc tcs
     | none => 0) +
    count_text enc (m.name.getD "") +
    count_text enc (m.tool_call_id.getD ""))).sum

end TokenCounter

/-- The mutable token-accounting fields of one `LLM` binding. -/
structure LLMState where
  model : String
  total_input_tokens : Int
  total_completion_tokens : Int
  max_input_tokens : Option Int
deriving DecidableEq, Repr

namespace LLM

/-- `MULTIMODAL_MODELS` (llm.py lines 40-47). -/
def MULTIMODAL_MODELS : List String :=
  ["gpt-4-vision-preview", "gpt-4o", "gpt-4o-mini",
   "claude-3-opus-20240229", "claude-3-sonnet-20240229",
   "claude-3-haiku-20240307"]

/-- `ROLE_VALUES` from `app.schema`.  Modelled from the spec: `app/schema.py`
is not among the three source files; the spec fixes the recognized roles as
system, user, assistant and tool. -/
def ROLE_VALUES : List String := ["system", "user", "assistant", "tool"]

/-- `LLM.check_token_limit` (llm.py lines 362-373). -/
def check_token_limit (llm : LLMState) (input_tokens : Int) : Bool :=
  match llm.max_input_tokens with
  | some m => decide (llm.total_input_tokens + input_tokens ≤ m)
  | none => true

/-- `LLM.get_limit_error_message` (llm.py lines 375-390). -/
def get_limit_error_message (llm : LLMState) (input_tokens : Int) : String :=
  match llm.max_input_tokens with
  | some m =>
    if llm.total_input_tokens + input_tokens > m then
      "Request may exceed input token limit (Current: "
        ++ toString llm.total_input_tokens
        ++ ", Needed: " ++ toString input_tokens
        ++ ", Max: " ++ toString m ++ ")"
    else "Token limit exceeded"
  | none => "Token limit exceeded"

/-- The per-message transform of `LLM.format_messages` (llm.py lines
413-461): attach a pending base64 image as a data-URL part when the model
supports images (a falsy content becomes an empty part list first), drop it
silently when not. -/
def format_message (supports_images : Bool) (m : DictMessage) : DictMessage :=
  if supports_images ∧ m.base64_image.isSome then
    let b := m.base64_image.getD ""
    let baseContent : List ContentItem :=
      match m.content with
      | none => []
      | some (.str s) => if s = "" then [] else [.text s]
      | some (.parts items) => items
    { m with
      content := some (.parts (baseContent ++
        [.image ("data:image/jpeg;base64," ++ b) none none])),
      base64_image := none }
  else if m.base64_image.isSome then
    { m with base64_image := none }
  else m

/-- `LLM.format_messages` (llm.py lines 392-470): transform each message,
keep only those with a `content` or `tool_calls` key, then reject any
formatted message whose role is unrecognized with a `ValueError`. -/
def format_messages (supports_images : Bool) (msgs : List DictMessage) :
    Except PyExc (List DictMessage) :=
  let formatted := (msgs.map (format_message supports_images)).filter
    (fun m => m.content.isSome || m.tool_calls.isSome)
  match formatted.find? (fun m => !(ROLE_VALUES.contains m.role)) with
  | some m => .error (.valueError ("Invalid role: " ++ m.role))
  | none => .ok formatted

/-- The provider's non-streaming reply, reduced to the fields `ask`
inspects: whether `response.choices` is non-empty, the first choice's
message content, and the usage counters. -/
structure ProviderReply where
  choices_nonempty : Bool
  content : Option String
  prompt_tokens : Int
  completion_tokens : Int
deriving DecidableEq, Repr

/-- The observables of one attempt of `LLM.ask`: the result or exception,
whether the provider endpoint was actually called, and the binding's
token-accounting state afterwards. -/
structure AskOutcome where
  result : Except PyExc String
  providerCalled : Bool
  llm : LLMState
deriving Repr

/-- One attempt of `LLM.ask` (llm.py lines 479-606, non-streaming branch;
the token-limit check at lines 517-523 precedes both the streaming and the
non-streaming dispatch identically): format system and user messages, count
input tokens, raise `TokenLimitExceeded` with the current/needed/max figures
*before any provider call* when the budget check fails, otherwise dispatch,
reject an empty response with `ValueError`, and account usage exactly once
on success. -/
def ask_attempt (enc : String → Nat)
    (provider : List DictMessage → Except PyExc ProviderReply)
    (llm : LLMState) (messages : List DictMessage)
    (system_msgs : Option (List DictMessage)) : AskOutcome :=
  let supports := MULTIMODAL_MODELS.contains llm.model
  let formattedE :=
    match system_msgs with
    | some sm =>
      (format_messages supports sm).bind fun fsm =>
        (format_messages supports messages).map fun fm => fsm ++ fm
    | none => format_messages supports messages
  match formattedE with
  | .error e => { result := .error e, providerCalled := false, llm := llm }
  | .ok formatted =>
    let input_tokens := TokenCounter.count_message_tokens enc formatted
    if ¬ check_token_limit llm input_tokens then
      { result := .error (.tokenLimitExceeded
          (get_limit_error_message llm input_tokens)),
        providerCalled := false, llm := llm }
    else
      match provider formatted with
      | .error e => { result := .error e, providerCalled := true, llm := llm }
      | .ok reply =>
        if ¬ reply.choices_nonempty ∨ reply.content.getD "" = "" then
          { result := .error (.valueError "Empty or invalid response from LLM"),
            providerCalled := true, llm := llm }
        else
          { result := .ok (reply.content.getD ""),
            providerCalled := true,
            llm := { llm with
              total_input_tokens := llm.total_input_tokens + reply.prompt_tokens,
              total_completion_tokens :=
                llm.total_completion_tokens + reply.completion_tokens } }

/-- `LLM.ask` as the caller observes it: the attempt body under the
`@retry` decorator (`wait_random_exponential`, `stop_after_attempt(6)`,
`retry_if_exception_type((OpenAIError, Exception, ValueError))`).  A failed
attempt leaves the accounting state unchanged, so every re-attempt replays
the same body. -/
def ask_retried (enc : String → Nat)
    (provider : List DictMessage → Except PyExc ProviderReply)
    (llm : LLMState) (messages : List DictMessage)
    (system_msgs : Option (List DictMessage)) : Nat × Except PyExc String :=
  tenacityCall askRetryPredicate 6
    (fun _ => (ask_attempt enc provider llm messages system_msgs).result)

end LLM

/-- A concrete tokenizer: one token per character. -/
def encLen : String → Nat := String.length

/-- An LLM binding with 90 cumulative input tokens against a ceiling of
100. -/
def llmC3 : LLMState :=
  { model := "gpt-4o", total_input_tokens := 90,
    total_completion_tokens := 0, max_input_tokens := some 100 }

/-- A single user message estimated at 12 input tokens under `encLen`
(2 format + 4 base + 4 role + 2 content). -/
def msgsC3 : List DictMessage :=
  [{ role := "user", content := some (.str "hi"), base64_image := none,
     tool_calls := none, name := none, tool_call_id := none }]

/-- A provider that would answer successfully if it were ever reached. -/
def providerStub : List DictMessage → Except PyExc LLM.ProviderReply :=
  fun _ => .ok { choices_nonempty := true, content := some "hello",
                 prompt_tokens := 12, completion_tokens := 5 }

/-- C3: the budget check does fail before any provider call with the
current/needed/max figures, but the failure is *not* non-retryable: the
`@retry` predicate `retry_if_exception_type((OpenAIError, Exception,
ValueError))` matches `TokenLimitExceeded` (a subclass of `Exception`), so
tenacity re-attempts the call and six attempts are observable instead of
the one the claim (and the source's own comments, llm.py lines 476 and 522)
promises. -/
theorem token_limit_exceeded_is_retried :
    askRetryPredicate (.tokenLimitExceeded "m") = true ∧
    (LLM.ask_attempt encLen providerStub llmC3 msgsC3 none).result
      = .error (.tokenLimitExceeded
        "Request may exceed input token limit (Current: 90, Needed: 12, Max: 100)") ∧
    (LLM.ask_attempt encLen providerStub llmC3 msgsC3 none).providerCalled
      = false ∧
    (LLM.ask_retried encLen providerStub llmC3 msgsC3 none).1 = 6 ∧
    (6 : Nat) ≠ 1 :=
  ⟨rfl, by rfl, by rfl, by rfl, by decide⟩

/-- One `LLM` Python object on the heap; `client` models
`hasattr(self, "client")`, the guard of `__init__`. -/
structure LLMObj where
  client : Bool
  model : String
  total_input_tokens : Int
  total_completion_tokens : Int
  max_input_tokens : Option Int
deriving DecidableEq, Repr

/-- In-place update of the heap cell at index `i` (out-of-range is a
no-op). -/
def listModify (f : LLMObj → LLMObj) : List LLMObj → Nat → List LLMObj
  | [], _ => []
  | o :: os, 0 => f o :: os
  | o :: os, n + 1 => o :: listModify f os n

/-- `LLM.__init__` (llm.py lines 268-319): the body runs only when the
`client` attribute has not been set yet; it resolves the configuration
(`cfgModel`, `cfgMax` stand for the resolved `LLMSettings`) and zeroes the
token counters. -/
def LLM.init (cfgModel : String) (cfgMax : Option Int) (o : LLMObj) : LLMObj :=
  if o.client then o
  else { client := true, model := cfgModel, total_input_tokens := 0,
         total_completion_tokens := 0, max_input_tokens := cfgMax }

/-- The class-level `LLM._instances` dict together with the heap of
allocated objects (index = object identity). -/
structure LLMRegistry where
  heap : List LLMObj
  instances : List (String × Nat)
deriving DecidableEq, Repr

/-- A fresh object before `__init__` has run: no attributes set. -/
def blankLLMObj : LLMObj :=
  { client := false, model := "", total_input_tokens := 0,
    total_completion_tokens := 0, max_input_tokens := none }

/-- `LLM.__new__` (llm.py lines 250-266) followed by Python's implicit
second `__init__` call on the instance `__new__` returns: when
`config_name` has no registered instance, allocate one, run `__init__`, and
register it; in every case return the registered instance, on which Python
re-runs `__init__` (a no-op once `client` is set).  The returned `Nat` is
the instance's heap index (its identity). -/
def LLM.new (cfgModel : String) (cfgMax : Option Int) (config_name : String)
    (r : LLMRegistry) : Nat × LLMRegistry :=
  match r.instances.lookup config_name with
  | some i =>
    (i, { r with heap := listModify (LLM.init cfgModel cfgMax) r.heap i })
  | none =>
    let obj := LLM.init cfgModel cfgMax blankLLMObj
    let i := r.heap.length
    let r1 : LLMRegistry :=
      { heap := r.heap ++ [obj],
        instances := r.instances ++ [(config_name, i)] }
    (i, { r1 with heap := listModify (LLM.init cfgModel cfgMax) r1.heap i })

/-- `LLM.update_token_count` (llm.py lines 345-360) applied to the instance
at heap index `i`. -/
def LLM.update_token_count_at (r : LLMRegistry) (i : Nat)
    (input_tokens completion_tokens : Int) : LLMRegistry :=
  { r with heap := listModify (fun o =>
      { o with
        total_input_tokens := o.total_input_tokens + input_tokens,
        total_completion_tokens :=
          o.total_completion_tokens + completion_tokens }) r.heap i }

theorem LLM.init_client (c : String) (m : Option Int) (o : LLMObj) :
    (LLM.init c m o).client = true := by
  rw [LLM.init]
  split
  next h => exact h
  next => rfl

theorem LLM.init_of_client (c : String) (m : Option Int) (o : LLMObj)
    (h : o.client = true) : LLM.init c m o = o := if_pos h

theorem listModify_comp (f g : LLMObj → LLMObj) (l : List LLMObj) (i : Nat) :
    listModify f (listModify g l i) i = listModify (fun o => f (g o)) l i := by
  induction l generalizing i with
  | nil => rfl
  | cons o os ih =>
    cases i with
    | zero => rfl
    | succ n => simpa [listModify] using ih n

theorem listModify_congr (f g : LLMObj → LLMObj) (l : List LLMObj) (i : Nat)
    (h : ∀ o, f o = g o) : listModify f l i = listModify g l i := by
  induction l generalizing i with
  | nil => rfl
  | cons o os ih =>
    cases i with
    | zero => simp [listModify, h o]
    | succ n => simpa [listModify] using ih n

theorem listModify_concat_length (f : LLMObj → LLMObj) (l : List LLMObj)
    (a : LLMObj) : listModify f (l ++ [a]) l.length = l ++ [f a] := by
  induction l with
  | nil => rfl
  | cons o os ih => simpa [listModify] using ih

theorem lookup_append_of_none (l : List (String × Nat)) (k : String) (v : Nat)
    (h : l.lookup k = none) : (l ++ [(k, v)]).lookup k = some v := by
  induction l with
  | nil => simp [List.lookup]
  | cons p l ih =>
    obtain ⟨k', v'⟩ := p
    simp only [List.lookup, List.cons_append] at h ⊢
    by_cases hk : (k == k') = true
    · rw [hk] at h
      exact Option.noConfusion h
    · rw [Bool.not_eq_true] at hk
      rw [hk] at h ⊢
      exact ih h

theorem listModify_init_absorb (c : String) (cm : Option Int)
    (f : LLMObj → LLMObj) (hf : ∀ o, (f o).client = o.client)
    (l : List LLMObj) (i : Nat) :
    listModify (LLM.init c cm)
        (listModify f (listModify (LLM.init c cm) l i) i) i
      = listModify f (listModify (LLM.init c cm) l i) i := by
  induction l generalizing i with
  | nil => rfl
  | cons o os ih =>
    cases i with
    | zero =>
      show LLM.init c cm (f (LLM.init c cm o)) :: os
        = f (LLM.init c cm o) :: os
      rw [LLM.init_of_client _ _ _ (by rw [hf]; exact LLM.init_client c cm o)]
    | succ n => simpa [listModify] using ih n

/-- C10: constructing `LLM` a second time under the same config name
returns the identical instance (the same heap identity) and leaves the
registry — including whatever token usage has accumulated on that instance
in between — exactly as it was: the repeated construction neither allocates
nor re-runs the `__init__` body (the `hasattr(self, "client")` guard), so
`total_input_tokens`, `total_completion_tokens` and `max_input_tokens` are
shared by every holder of that config name and are never reset. -/
theorem llm_singleton_shared (cfgModel : String) (cfgMax : Option Int)
    (config_name : String) (r : LLMRegistry) (inTok compTok : Int)
    (i1 : Nat) (r1 : LLMRegistry)
    (h : LLM.new cfgModel cfgMax config_name r = (i1, r1)) :
    LLM.new cfgModel cfgMax config_name
        (LLM.update_token_count_at r1 i1 inTok compTok)
      = (i1, LLM.update_token_count_at r1 i1 inTok compTok) := by
  cases hl : r.instances.lookup config_name with
  | some i =>
    rw [LLM.new, hl] at h
    cases h
    simp only [LLM.new, LLM.update_token_count_at, hl]
    rw [listModify_init_absorb cfgModel cfgMax
      (fun o => { o with
        total_input_tokens := o.total_input_tokens + inTok,
        total_completion_tokens := o.total_completion_tokens + compTok })
      (fun o => rfl)]
  | none =>
    rw [LLM.new, hl] at h
    dsimp only at h
    rw [listModify_concat_length] at h
    rw [LLM.init_of_client _ _ _ (LLM.init_client _ _ _)] at h
    cases h
    simp only [LLM.update_token_count_at]
    rw [listModify_concat_length]
    simp only [LLM.new, lookup_append_of_none _ _ _ hl]
    rw [listModify_concat_length]
    rw [LLM.init_of_client cfgModel cfgMax
      { LLM.init cfgModel cfgMax blankLLMObj with
        total_input_tokens :=
          (LLM.init cfgModel cfgMax blankLLMObj).total_input_tokens + inTok,
        total_completion_tokens :=
          (LLM.init cfgModel cfgMax blankLLMObj).total_completion_tokens
            + compTok }
      (LLM.init_client cfgModel cfgMax blankLLMObj)]

/-- The registry before any `LLM` has been constructed. -/
def emptyRegistry : LLMRegistry := { heap := [], instances := [] }

/-- The registry after the first `LLM("default")` construction. -/
def registryC10 : LLMRegistry :=
  { heap := [{ client := true, model := "gpt-4o", total_input_tokens := 0,
               total_completion_tokens := 0, max_input_tokens := some 100 }],
    instances := [("default", 0)] }

/-- Witness for C10: construct under `"default"`, account 7 input and 3
completion tokens, construct again — the identical instance is returned and
the counters survive. -/
theorem llm_singleton_shared_witness :
    LLM.new "gpt-4o" (some 100) "default"
        (LLM.update_token_count_at registryC10 0 7 3)
      = (0, LLM.update_token_count_at registryC10 0 7 3) :=
  llm_singleton_shared "gpt-4o" (some 100) "default" emptyRegistry 7 3 0
    registryC10 (by rfl)

/-- The `try` body of `PlanningFlow.execute` (planning.py lines 142-178):
raise `ValueError("No primary agent available")` when no primary executing
agent is configured (the `primary_agent` property resolves the configured
key; its absence is modelled by `hasPrimaryAgent = false`); for a non-empty
input whose plan creation left nothing in storage, return the
plan-creation-failure string; otherwise produce the step loop's outcome.
`loopOutcome` abstracts the whole loop (step execution, finalization and
plan creation), any of whose internal failures surface here as a raised
exception. -/
def PlanningFlow.executeBody (hasPrimaryAgent : Bool) (input_text : String)
    (planInStorage : Bool) (loopOutcome : Except PyExc String) :
    Except PyExc String :=
  if ¬ hasPrimaryAgent then .error (.valueError "No primary agent available")
  else if input_text ≠ "" ∧ ¬ planInStorage then
    .ok ("Failed to create plan for: " ++ input_text)
  else loopOutcome

/-- `PlanningFlow.execute` (planning.py lines 124-181): the body above
wrapped in the top-level `except Exception` handler, which converts *any*
raised exception — including the no-primary-agent `ValueError` raised
inside the `try` — into the string `"Execution failed: <message>"`.
`execute` is total: no exception ever propagates to its caller. -/
def PlanningFlow.execute (hasPrimaryAgent : Bool) (input_text : String)
    (planInStorage : Bool) (loopOutcome : Except PyExc String) : String :=
  match PlanningFlow.executeBody hasPrimaryAgent input_text planInStorage
      loopOutcome with
  | .ok s => s
  | .error e => "Execution failed: " ++ e.message

/-- C7: with no primary agent configured, `execute` does *not* propagate
the precondition error: the `raise ValueError("No primary agent
available")` sits inside the method's own top-level `try`, so the
`except Exception` handler at planning.py line 179 absorbs it into the
returned string `"Execution failed: No primary agent available"` — for
every input and every loop outcome — exactly like any other failure.
(The return type of the embedding is a plain `String`: no exception
escapes `execute` on any path.) -/
theorem execute_no_primary_agent_absorbed :
    ∀ (input_text : String) (planInStorage : Bool)
      (loopOutcome : Except PyExc String),
      PlanningFlow.execute false input_text planInStorage loopOutcome
        = "Execution failed: No primary agent available" :=
  fun _ _ _ => rfl
